import Mathlib

/-!
Shallow embedding of the PropertyAgents frontend (amitsajwan/PropertyAgents).

The repository contains two variants of the chat client:
  * `src/frontend/src/App.tsx`  (embedded here with the `Frontend` prefix), and
  * `src/src/App.tsx`           (embedded here with the `Srcv` prefix),
plus the Facebook integration page (`src/unnamed/part_003`), the
`PostCreator` component (`src/unnamed/part_002`) and the type declarations
(`src/unnamed/part_000`).

JavaScript objects keyed by strings are modelled as association lists
`List (String × V)` with unique keys maintained by `setKey`, which mirrors
the spread update `\x7b...prev, [k]: v\x7d`: it replaces the value of an
existing key in place and appends a fresh key at the end, exactly as the
JS object would order its keys.  Network calls are modelled by passing
their outcome (`Except` of the error record and the response record)
explicitly to the pure state-transition function that the handler performs.
-/

namespace PropertyAgents

/-- An opaque JSON-ish value stored in the workflow state.  `vundefined`
models the JavaScript `undefined` that appears when a missing property is
read. -/
inductive Value where
  | vstr : String → Value
  | vundefined : Value
  deriving DecidableEq, Repr

/-- Lookup in a JS object modelled as an association list: the value at the
first matching key (JS objects keep keys unique, so first = only). -/
def getVal {V : Type} : List (String × V) → String → Option V
  | [], _ => none
  | (k0, v0) :: rest, k => if k = k0 then some v0 else getVal rest k

/-- The JS spread update `\x7b...prev, [k]: v\x7d`: overwrite the value of an
existing key in place, otherwise append the new binding at the end. -/
def setKey {V : Type} : List (String × V) → String → V → List (String × V)
  | [], k, v => [(k, v)]
  | (k0, v0) :: rest, k, v =>
      if k0 = k then (k, v) :: rest else (k0, v0) :: setKey rest k v

/-- The keys of a JS object. -/
def keysOf {V : Type} (m : List (String × V)) : List String :=
  m.map Prod.fst

/-- The JS spread merge `\x7b...prev, ...data\x7d`: apply the bindings of
`data` over `m`, one at a time, in order. -/
def spreadInto {V : Type} (m : List (String × V)) (data : List (String × V)) :
    List (String × V) :=
  data.foldl (fun acc p => setKey acc p.1 p.2) m

/-- The value the key `k` would end up with when the bindings of `data` are
applied in order (the last binding of `k` wins), or `none` when `data` does
not bind `k`. -/
def lastVal {V : Type} : List (String × V) → String → Option V
  | [], _ => none
  | (k0, v0) :: rest, k =>
      match lastVal rest k with
      | some v => some v
      | none => if k = k0 then some v0 else none

/-- Left-biased choice on `Option`, used to state merge results. -/
def orO {V : Type} : Option V → Option V → Option V
  | some v, _ => some v
  | none, b => b

/-- The JS `||` fallback on a possibly-missing string: JavaScript treats
both `undefined` and the empty string as falsy. -/
def jsOr (o : Option String) (d : String) : String :=
  match o with
  | some s => if s = "" then d else s
  | none => d

/-- One chat bubble: `\x7bfrom: 'user' | 'assistant', text\x7d`.  The JS field
`from` is a Lean keyword, so it is called `origin` here. -/
structure ChatMessage where
  origin : String
  text : String
  deriving DecidableEq, Repr

/-- The client state touched by the WebSocket `onmessage` handler of both
App.tsx variants: `messages`, `workflowState`, `loadingStates` and
`showDetailsForm`. -/
structure ClientState where
  messages : List ChatMessage
  workflowState : List (String × Value)
  loadingStates : List (String × Bool)
  showDetailsForm : Bool
  deriving DecidableEq, Repr

/-- A successfully JSON-parsed inbound message, dispatched on its `type`
tag.  `update` carries `msg.step` and the bindings of the `msg.data` object
(in key order); `final` carries the optional `msg.message`; `unknown` is any
other tag. -/
inductive ServerMsg where
  | update (step : String) (data : List (String × Value))
  | requestInput
  | error (message : String)
  | final (message : Option String)
  | unknown (tag : String)
  deriving DecidableEq, Repr

/-- `src/frontend/src/App.tsx`, `ws.current.onmessage` switch (lines
114-137): dispatch on `msg.type`.  `update` clears `loadingStates[msg.step]`
and spreads the whole `msg.data` object into `workflowState`; `error`
appends one assistant message and resets `loadingStates` to the empty
object; `final` appends `msg.message || '✅ All done!'` and clears
`post_to_facebook`; the default branch only logs. -/
def dispatchFrontend : ServerMsg → ClientState → ClientState
  | .update step data, st =>
      { st with
        loadingStates := setKey st.loadingStates step false,
        workflowState := spreadInto st.workflowState data }
  | .requestInput, st =>
      { st with
        showDetailsForm := true,
        messages := st.messages ++
          [⟨"assistant", "Branding complete! Now I need a few more details to create the post. Please fill out the form on the right."⟩] }
  | .error m, st =>
      { st with
        messages := st.messages ++ [⟨"assistant", "**Error:** " ++ m⟩],
        loadingStates := [] }
  | .final m, st =>
      { st with
        messages := st.messages ++ [⟨"assistant", jsOr m "✅ All done!"⟩],
        loadingStates := setKey st.loadingStates "post_to_facebook" false }
  | .unknown _, st => st

/-- `src/src/App.tsx`, `handleWorkflowUpdate` (lines 123-131): clears
`loadingStates[step]`, then reads the first key of the `data` object
(`Object.keys(data)[0]`, the JS `undefined` — stringified to "undefined" by
the computed property — when `data` is empty) and writes only that binding
into `workflowState`. -/
def handleWorkflowUpdate (step : String) (data : List (String × Value))
    (st : ClientState) : ClientState :=
  let stateKey := (data.head?.map Prod.fst).getD "undefined"
  let value := (data.head?.map Prod.snd).getD Value.vundefined
  { st with
    loadingStates := setKey st.loadingStates step false,
    workflowState := setKey st.workflowState stateKey value }

/-- `src/src/App.tsx`, `ws.current.onmessage` switch (lines 104-117):
`update` goes to `handleWorkflowUpdate`; `request_input` reveals the form
and appends an assistant message; `error` appends one assistant message
(and nothing else — the loading flags are NOT cleared in this variant);
there is no `final` case, so `final` falls into the silent default branch
together with unknown tags. -/
def dispatchSrc : ServerMsg → ClientState → ClientState
  | .update step data, st => handleWorkflowUpdate step data st
  | .requestInput, st =>
      { st with
        showDetailsForm := true,
        messages := st.messages ++
          [⟨"assistant", "I need a few more details to proceed. Please fill out the form on the right."⟩] }
  | .error m, st =>
      { st with messages := st.messages ++ [⟨"assistant", "**Error:** " ++ m⟩] }
  | .final _, st => st
  | .unknown _, st => st

/-- The full `onmessage` handler of `src/frontend/src/App.tsx` (lines
109-141): the body is wrapped in try/catch, so a payload on which
`JSON.parse` throws (`none` here) is logged and dropped. -/
def onmessageFrontend (payload : Option ServerMsg) (st : ClientState) :
    ClientState :=
  match payload with
  | some msg => dispatchFrontend msg st
  | none => st

/-- The full `onmessage` handler of `src/src/App.tsx` (lines 100-118):
`JSON.parse(event.data)` is NOT wrapped in try/catch, so a payload on which
it throws makes the handler itself throw (`Except.error`) before any state
is touched. -/
def onmessageSrc (payload : Option ServerMsg) (st : ClientState) :
    Except Unit ClientState :=
  match payload with
  | some msg => .ok (dispatchSrc msg st)
  | none => .error ()

/-- The `connection` state of `PostCreator` (`src/unnamed/part_002`, lines
11-15): `\x7bstatus, pageName?, error?\x7d`.  The status union
`'loading' | 'connected' | 'disconnected' | 'no_page_selected' | 'error'`
is kept as the raw string the JS code assigns. -/
structure ConnectionState where
  status : String
  pageName : Option String
  err : Option String
  deriving DecidableEq, Repr

/-- Response record of `GET /facebook/verify-connection/:agentId`
(fields read by `checkConnection`): `status`, `page_name`, `detail`, each
possibly absent. -/
structure VerifyResp where
  status : Option String
  page_name : Option String
  detail : Option String
  deriving DecidableEq, Repr

/-- What `checkConnection`/`handleSubmit` read off a caught `AxiosError`:
`response?.status` and `response?.data?.detail`. -/
structure AxiosErr where
  status : Option Nat
  detail : Option String
  deriving DecidableEq, Repr

/-- `PostCreator.checkConnection` (`src/unnamed/part_002`, lines 35-62) as a
function of the outcome of the GET.  Every branch assigns all three fields
of `connection`, so the result does not depend on the prior state (the
intermediate `status:'loading'` spread is overwritten before the handler
returns). -/
def checkConnection (result : Except AxiosErr VerifyResp) : ConnectionState :=
  match result with
  | .ok r =>
      if r.status = some "connected" then
        ⟨"connected", r.page_name, none⟩
      else
        ⟨jsOr r.status "disconnected", none, r.detail⟩
  | .error e =>
      ⟨"error", none, some (jsOr e.detail "Failed to check connection")⟩

/-- The catch branch of `PostCreator.handleSubmit` (`src/unnamed/part_002`,
lines 94-108), together with the `error: undefined` spread done before the
try (line 73): on a 401 the connection is re-checked first (`recheck` is the
outcome of that inner GET), and only then is the surfaced error message set
over whatever state the re-check left. -/
def handleSubmitFailure (conn : ConnectionState) (e : AxiosErr)
    (recheck : Except AxiosErr VerifyResp) : ConnectionState :=
  let conn0 : ConnectionState := { conn with err := none }
  let conn1 := if e.status = some 401 then checkConnection recheck else conn0
  { conn1 with err := some (jsOr e.detail "Failed to create post") }

/-- The JS `name.split('.')` on the character list of the name: split at
every dot, keeping empty pieces; the result is always non-empty. -/
def splitDot : List Char → List (List Char)
  | [] => [[]]
  | c :: rest =>
      match splitDot rest with
      | [] => [[]]
      | piece :: more =>
          if c = '.' then [] :: piece :: more else (c :: piece) :: more

/-- The extension computed by `PostCreator.handleImageChange`
(`src/unnamed/part_002`, line 117): `file.name.split('.').pop()?.toLowerCase()`.
`split` always yields a non-empty array, so `pop` never returns `undefined`;
for a dot-free name the whole name comes back. -/
def extOf (name : String) : String :=
  String.mk (((splitDot name.toList).getLast?.getD []).map Char.toLower)

/-- The allow-list of `src/unnamed/part_002`, line 118. -/
def allowedExts : List String := ["jpg", "jpeg", "png", "webp"]

/-- The validity test of `handleImageChange` (line 118):
`ext && ['jpg','jpeg','png','webp'].includes(ext)` — the truthiness guard
on `ext` rejects the empty string. -/
def isValidFile (name : String) : Bool :=
  let ext := extOf name
  ext ≠ "" && allowedExts.contains ext

/-- `PostCreator.handleImageChange` (`src/unnamed/part_002`, lines 111-130)
on the list of selected file names: one pass over the files, keeping the
valid ones (`setImages(validFiles)`) and raising one
`File type .EXT not supported` error per rejected file, in order.  The
first component is the resulting `images` list, the second the sequence of
error messages passed to `setConnection`. -/
def handleImageChange (files : List String) : List String × List String :=
  files.foldl
    (fun acc name =>
      if isValidFile name then (acc.1 ++ [name], acc.2)
      else (acc.1, acc.2 ++ ["File type ." ++ extOf name ++ " not supported"]))
    ([], [])

/-- The claim's own notion of a file extension, written from the spec's
words "extension (lowercased, after the last dot)": the lowercased part of
the name after its LAST dot; a name that contains no dot has no extension.
Declared only to be compared against the code's `extOf`. -/
def specExtension (name : String) : Option String :=
  if name.toList.contains '.' then
    some (String.mk (((splitDot name.toList).getLast?.getD []).map Char.toLower))
  else none

/-- The claim's acceptance test: the file's extension, in the sense of
`specExtension`, exists and is in the allow-list. -/
def specValidFile (name : String) : Bool :=
  match specExtension name with
  | some e => allowedExts.contains e
  | none => false

/-- `picture.data` of a `FacebookPage` (`src/unnamed/part_000`). -/
structure PagePictureData where
  url : String
  deriving DecidableEq, Repr

/-- `picture` of a `FacebookPage` (`src/unnamed/part_000`). -/
structure PagePicture where
  data : PagePictureData
  deriving DecidableEq, Repr

/-- `FacebookPage` (`src/unnamed/part_000`, lines 13-23). -/
structure FacebookPage where
  id : String
  name : String
  access_token : String
  category : Option String
  picture : Option PagePicture
  deriving DecidableEq, Repr

/-- `FacebookPost` (`src/unnamed/part_000`, lines 3-9). -/
structure FacebookPost where
  id : String
  text : String
  url : String
  created_at : String
  images : Option (List String)
  deriving DecidableEq, Repr

/-- `pageInfo` of `FacebookIntegrationPage` (`src/unnamed/part_003`,
line 17): `\x7bname?, id?\x7d`. -/
structure PageInfo where
  name : Option String
  id : Option String
  deriving DecidableEq, Repr

/-- The state of `FacebookIntegrationPage` (`src/unnamed/part_003`, lines
13-17) touched by `handleDisconnect` / `handlePageSelect`. -/
structure FBPageState where
  status : String
  posts : List FacebookPost
  isLoading : Bool
  availablePages : List FacebookPage
  pageInfo : PageInfo
  deriving DecidableEq, Repr

/-- Response record of `POST /facebook/select-page` as read by
`handlePageSelect` (`page_name`, `page_id`). -/
structure SelectResp where
  page_name : Option String
  page_id : Option String
  deriving DecidableEq, Repr

/-- Response record of `GET /facebook/status` as read by `handlePageSelect`
(only `posts` is used there). -/
structure StatusResp where
  posts : Option (List FacebookPost)
  deriving DecidableEq, Repr

/-- `FacebookIntegrationPage.handleDisconnect` (`src/unnamed/part_003`,
lines 57-69) as a function of the POST outcome: on success it resets
status, posts and page info; on failure the catch only logs
(`console.error`) and the finally clause clears `isLoading` — nothing else
changes and no message is surfaced (the state has no error field at all). -/
def handleDisconnect (st : FBPageState) (result : Except Unit Unit) :
    FBPageState :=
  match result with
  | .ok _ =>
      { st with
        status := "disconnected", posts := [], pageInfo := ⟨none, none⟩,
        isLoading := false }
  | .error _ => { st with isLoading := false }

/-- `FacebookIntegrationPage.handlePageSelect` (`src/unnamed/part_003`,
lines 71-99) as a function of the outcomes of the select-page POST and of
the follow-up status GET.  If the POST throws, the catch only logs (the
comment `// Show error to user` has no code behind it) and `isLoading` is
cleared.  If the POST succeeds, status/pageInfo/availablePages are updated
before the refresh; if the refresh then throws, those updates survive but
`posts` stays as it was. -/
def handlePageSelect (st : FBPageState)
    (selectResult : Except Unit SelectResp)
    (statusResult : Except Unit StatusResp) : FBPageState :=
  match selectResult with
  | .error _ => { st with isLoading := false }
  | .ok r =>
      let st1 :=
        { st with
          status := "connected", pageInfo := ⟨r.page_name, r.page_id⟩,
          availablePages := [] }
      match statusResult with
      | .ok sr => { st1 with posts := sr.posts.getD [], isLoading := false }
      | .error _ => { st1 with isLoading := false }

/-! ## Lemmas about the JS-object model -/

theorem getVal_setKey {V : Type} (m : List (String × V)) (k k' : String) (v : V) :
    getVal (setKey m k v) k' = if k' = k then some v else getVal m k' := by
  induction m with
  | nil => simp [setKey, getVal]
  | cons p rest ih =>
      obtain ⟨k0, v0⟩ := p
      by_cases h0 : k0 = k
      · subst h0
        by_cases h' : k' = k0 <;> simp [setKey, getVal, h']
      · by_cases h' : k' = k0
        · subst h'
          simp [setKey, getVal, h0, Ne.symm h0]
        · simp [setKey, getVal, h0, h', ih]

theorem keysOf_setKey_sub {V : Type} (m : List (String × V)) (k k' : String) (v : V)
    (h : k' ∈ keysOf m) : k' ∈ keysOf (setKey m k v) := by
  induction m with
  | nil => simp [keysOf] at h
  | cons p rest ih =>
      obtain ⟨k0, v0⟩ := p
      have h' : k' = k0 ∨ k' ∈ keysOf rest := List.mem_cons.mp h
      by_cases h0 : k0 = k
      · subst h0
        have e : setKey ((k0, v0) :: rest) k0 v = (k0, v) :: rest := by simp [setKey]
        rw [e]
        rcases h' with h1 | h1
        · exact List.mem_cons.mpr (Or.inl h1)
        · exact List.mem_cons.mpr (Or.inr h1)
      · rcases h' with h1 | h1
        · simpa [keysOf, setKey, h0] using Or.inl h1
        · have : k' ∈ keysOf (setKey rest k v) := ih h1
          simpa [keysOf, setKey, h0] using Or.inr this

theorem getVal_spreadInto {V : Type} (data m : List (String × V)) (k : String) :
    getVal (spreadInto m data) k = orO (lastVal data k) (getVal m k) := by
  induction data generalizing m with
  | nil => simp [spreadInto, lastVal, orO]
  | cons p rest ih =>
      obtain ⟨k0, v0⟩ := p
      have hstep : spreadInto m ((k0, v0) :: rest) = spreadInto (setKey m k0 v0) rest := rfl
      rw [hstep, ih]
      rw [getVal_setKey]
      cases hrest : lastVal rest k with
      | some v => simp [lastVal, hrest, orO]
      | none =>
          by_cases hk : k = k0
          · subst hk
            simp [lastVal, hrest, orO]
          · simp [lastVal, hrest, orO, hk]

theorem keysOf_spreadInto_sub {V : Type} (data m : List (String × V)) (k : String)
    (h : k ∈ keysOf m) : k ∈ keysOf (spreadInto m data) := by
  induction data generalizing m with
  | nil => exact h
  | cons p rest ih =>
      obtain ⟨k0, v0⟩ := p
      have hstep : spreadInto m ((k0, v0) :: rest) = spreadInto (setKey m k0 v0) rest := rfl
      rw [hstep]
      exact ih _ (keysOf_setKey_sub m k0 k v0 h)

/-! ## Claim C1 -/

/-- Claim C1, counterexample.  The claim says an `update` for step `S`
overwrites only stage `S`'s value and leaves every other workflow key
unchanged.  In the code an update for step `create_branding` writes the
keys of its `data` object — here `brand_suggestions`, a key different from
the step name — so a key other than `S` changes (from absent to present). -/
theorem C1_counterexample :
    ("brand_suggestions" : String) ≠ "create_branding" ∧
    getVal (dispatchFrontend
        (.update "create_branding" [("brand_suggestions", .vstr "Sunshine Homes")])
        ⟨[], [], [], false⟩).workflowState "brand_suggestions"
      = some (.vstr "Sunshine Homes") ∧
    getVal (⟨[], [], [], false⟩ : ClientState).workflowState "brand_suggestions"
      = none := by
  decide

/-- Claim C1, amended.  Handling an inbound `update` with step `S` and data
object `d` sets exactly the loading flag for `S` to false (all other
loading flags unchanged) in both App.tsx variants; in the workflow store
the frontend variant overwrites exactly the keys of `d` (with the last
binding of a key winning) and the `src/src` variant overwrites exactly the
first key of `d`; all other workflow keys are unchanged. -/
theorem C1_update_effect (step : String) (data : List (String × Value))
    (st : ClientState) (k : String) :
    getVal (dispatchFrontend (.update step data) st).loadingStates k
      = (if k = step then some false else getVal st.loadingStates k) ∧
    getVal (dispatchFrontend (.update step data) st).workflowState k
      = orO (lastVal data k) (getVal st.workflowState k) ∧
    getVal (dispatchSrc (.update step data) st).loadingStates k
      = (if k = step then some false else getVal st.loadingStates k) ∧
    (∀ k0 v0 rest, data = (k0, v0) :: rest →
      getVal (dispatchSrc (.update step data) st).workflowState k
        = (if k = k0 then some v0 else getVal st.workflowState k)) := by
  refine ⟨?_, ?_, ?_, ?_⟩
  · simpa [dispatchFrontend] using getVal_setKey st.loadingStates step k false
  · simpa [dispatchFrontend] using getVal_spreadInto data st.workflowState k
  · simpa [dispatchSrc, handleWorkflowUpdate]
      using getVal_setKey st.loadingStates step k false
  · rintro k0 v0 rest rfl
    simpa [dispatchSrc, handleWorkflowUpdate]
      using getVal_setKey st.workflowState k0 k v0

/-- Claim C1, witness for `C1_update_effect` at a concrete update. -/
theorem C1_update_effect_witness :
    getVal (dispatchSrc
        (.update "create_branding" [("brand_suggestions", .vstr "x")])
        ⟨[], [], [], false⟩).workflowState "brand_suggestions"
      = some (.vstr "x") := by
  have h := C1_update_effect "create_branding"
    [("brand_suggestions", .vstr "x")] ⟨[], [], [], false⟩ "brand_suggestions"
  have h4 := h.2.2.2 "brand_suggestions" (.vstr "x") [] rfl
  rw [if_pos rfl] at h4
  exact h4

/-! ## Claim C2 -/

/-- Claim C2, counterexample.  The claim says an `error` event, in every
current state, sets every loading flag to false.  The `src/src/App.tsx`
handler's `error` case only appends a chat message and never touches the
loading flags: starting with `create_branding` in flight, the flag is still
true afterwards. -/
theorem C2_counterexample :
    getVal (dispatchSrc (.error "boom")
        ⟨[], [], [("create_branding", true)], false⟩).loadingStates
      "create_branding" = some true := by
  decide

/-- Claim C2, amended.  On an inbound `error` the frontend variant resets
the loading map to empty, appends exactly one assistant-origin error
message, and does not reset the workflow store or the form flag; the
`src/src` variant appends exactly the same single assistant message but
leaves the loading flags (and the workflow store) untouched. -/
theorem C2_error_effect (m : String) (st : ClientState) :
    (dispatchFrontend (.error m) st).loadingStates = [] ∧
    (dispatchFrontend (.error m) st).messages
      = st.messages ++ [⟨"assistant", "**Error:** " ++ m⟩] ∧
    (dispatchFrontend (.error m) st).workflowState = st.workflowState ∧
    (dispatchFrontend (.error m) st).showDetailsForm = st.showDetailsForm ∧
    (dispatchSrc (.error m) st).messages
      = st.messages ++ [⟨"assistant", "**Error:** " ++ m⟩] ∧
    (dispatchSrc (.error m) st).loadingStates = st.loadingStates ∧
    (dispatchSrc (.error m) st).workflowState = st.workflowState :=
  ⟨rfl, rfl, rfl, rfl, rfl, rfl, rfl⟩

/-! ## Claim C3 -/

/-- Claim C3, counterexample.  The claim says a payload that fails to parse
is logged and dropped without a throw.  In `src/src/App.tsx` the
`JSON.parse(event.data)` call is not wrapped in try/catch, so the handler
itself throws on such a payload. -/
theorem C3_counterexample :
    onmessageSrc none ⟨[], [], [], false⟩ = Except.error () := rfl

/-- Claim C3, amended.  A payload on which `JSON.parse` throws is dropped
by the frontend handler with no state change and no throw (its body is
wrapped in try/catch); the `src/src` handler also changes no state but the
parse exception propagates out of the handler uncaught. -/
theorem C3_malformed_payload (st : ClientState) :
    onmessageFrontend none st = st ∧
    onmessageSrc none st = Except.error () :=
  ⟨rfl, rfl⟩

/-! ## Claim C4 -/

/-- Claim C4: last-write-wins per stage key.  For any stage key `S` and two
inbound updates carrying `S ↦ v1` and then `S ↦ v2` (in arrival order,
whatever their step names), after handling both events the workflow store
maps `S` to the later-arriving `v2`, in both App.tsx variants. -/
theorem C4_last_write_wins (s1 s2 S : String) (v1 v2 : Value)
    (st : ClientState) :
    getVal (dispatchFrontend (.update s2 [(S, v2)])
        (dispatchFrontend (.update s1 [(S, v1)]) st)).workflowState S
      = some v2 ∧
    getVal (dispatchSrc (.update s2 [(S, v2)])
        (dispatchSrc (.update s1 [(S, v1)]) st)).workflowState S
      = some v2 := by
  constructor
  · show getVal (setKey (setKey st.workflowState S v1) S v2) S = some v2
    rw [getVal_setKey, if_pos rfl]
  · show getVal (setKey (setKey st.workflowState S v1) S v2) S = some v2
    rw [getVal_setKey, if_pos rfl]

/-! ## Claim C5 -/

/-- Claim C5: no inbound event ever removes a key from the workflow store.
Every key present before handling any parsed message (`update`,
`request_input`, `error`, `final` or an unknown tag) is still present
afterwards, in both App.tsx variants. -/
theorem C5_no_key_removed (msg : ServerMsg) (st : ClientState) (k : String)
    (h : k ∈ keysOf st.workflowState) :
    k ∈ keysOf (dispatchFrontend msg st).workflowState ∧
    k ∈ keysOf (dispatchSrc msg st).workflowState := by
  constructor
  · cases msg with
    | update step data => exact keysOf_spreadInto_sub data st.workflowState k h
    | requestInput => exact h
    | error m => exact h
    | final m => exact h
    | unknown t => exact h
  · cases msg with
    | update step data => exact keysOf_setKey_sub st.workflowState _ k _ h
    | requestInput => exact h
    | error m => exact h
    | final m => exact h
    | unknown t => exact h

/-- Claim C5, witness for `C5_no_key_removed` at a concrete state holding
one workflow key and an inbound error event. -/
theorem C5_no_key_removed_witness :
    "brand_suggestions" ∈ keysOf (dispatchFrontend (.error "x")
        ⟨[], [("brand_suggestions", .vstr "s")], [], false⟩).workflowState ∧
    "brand_suggestions" ∈ keysOf (dispatchSrc (.error "x")
        ⟨[], [("brand_suggestions", .vstr "s")], [], false⟩).workflowState :=
  C5_no_key_removed (.error "x")
    ⟨[], [("brand_suggestions", .vstr "s")], [], false⟩
    "brand_suggestions" (by decide)

/-! ## Claim C6 -/

/-- Claim C6, counterexample.  The claim says every inbound `final` message
appends one completion message and clears the `post_to_facebook` loading
flag.  The `src/src/App.tsx` switch has no `final` case, so the event falls
into the silent default branch: nothing is appended and the flag stays
true. -/
theorem C6_counterexample :
    (dispatchSrc (.final (some "done"))
        ⟨[], [], [("post_to_facebook", true)], false⟩).messages = [] ∧
    getVal (dispatchSrc (.final (some "done"))
        ⟨[], [], [("post_to_facebook", true)], false⟩).loadingStates
      "post_to_facebook" = some true := by
  decide

/-- Claim C6, amended.  On an inbound `final` the frontend variant appends
one completion message — the message's own text, or the default
`✅ All done!` when it is absent or empty — and sets the `post_to_facebook`
loading flag to false, leaving every other loading flag unchanged; the
`src/src` variant has no `final` case and leaves the state unchanged. -/
theorem C6_final_effect (m : Option String) (st : ClientState) (k : String) :
    (dispatchFrontend (.final m) st).messages
      = st.messages ++ [⟨"assistant", jsOr m "✅ All done!"⟩] ∧
    getVal (dispatchFrontend (.final m) st).loadingStates "post_to_facebook"
      = some false ∧
    (k ≠ "post_to_facebook" →
      getVal (dispatchFrontend (.final m) st).loadingStates k
        = getVal st.loadingStates k) ∧
    dispatchSrc (.final m) st = st := by
  refine ⟨rfl, ?_, ?_, rfl⟩
  · show getVal (setKey st.loadingStates "post_to_facebook" false)
      "post_to_facebook" = some false
    rw [getVal_setKey, if_pos rfl]
  · intro hk
    show getVal (setKey st.loadingStates "post_to_facebook" false) k
      = getVal st.loadingStates k
    rw [getVal_setKey, if_neg hk]

/-- Claim C6, witness for `C6_final_effect` at a concrete state and a
loading key different from `post_to_facebook`. -/
theorem C6_final_effect_witness :
    ("create_branding" : String) ≠ "post_to_facebook" ∧
    getVal (dispatchFrontend (.final (some "done"))
        ⟨[], [], [("create_branding", true)], false⟩).loadingStates
      "create_branding"
      = getVal (⟨[], [], [("create_branding", true)], false⟩ :
          ClientState).loadingStates "create_branding" :=
  ⟨by decide,
   (C6_final_effect (some "done") ⟨[], [], [("create_branding", true)], false⟩
      "create_branding").2.2.1 (by decide)⟩

/-! ## Claim C7 -/

/-- Claim C7, counterexample.  The claim says a failed panel call leaves
status and page name exactly as they were.  A failed `checkConnection`
assigns all three fields regardless of the prior state: the status becomes
`error` and the page name is wiped to `undefined`, so a prior page name
such as `MyPage` is not preserved. -/
theorem C7_counterexample :
    (checkConnection (Except.error ⟨none, none⟩)).status = "error" ∧
    (checkConnection (Except.error ⟨none, none⟩)).pageName ≠ some "MyPage" ∧
    (checkConnection (Except.error ⟨none, none⟩)).err
      = some "Failed to check connection" := by
  decide

/-- Claim C7, amended.  A failed `checkConnection` surfaces the
server-provided detail or the fallback `Failed to check connection`, but
sets the status to `error` and clears the page name (it does not preserve
them).  A failed `disconnect` or `selectPage` surfaces no message at all
(the error is only logged) and leaves status, posts, page info and
available pages unchanged, clearing only the in-flight flag. -/
theorem C7_failure_effect (e : AxiosErr) (st : FBPageState)
    (sres : Except Unit StatusResp) :
    checkConnection (.error e)
      = ⟨"error", none, some (jsOr e.detail "Failed to check connection")⟩ ∧
    handleDisconnect st (.error ()) = { st with isLoading := false } ∧
    handlePageSelect st (.error ()) sres = { st with isLoading := false } :=
  ⟨rfl, rfl, rfl⟩

/-! ## Claim C8 -/

/-- Claim C8: when post creation fails with HTTP 401 the connection is
re-checked first and the surfaced error message is set only afterwards (the
final state is the re-check's result with the error message laid on top);
for any other failure status no re-check happens — the prior status and
page name survive unchanged and only the error message is set. -/
theorem C8_401_recheck (conn : ConnectionState) (e : AxiosErr)
    (recheck : Except AxiosErr VerifyResp) :
    (handleSubmitFailure conn e recheck).err
      = some (jsOr e.detail "Failed to create post") ∧
    (e.status = some 401 →
      (handleSubmitFailure conn e recheck).status
        = (checkConnection recheck).status ∧
      (handleSubmitFailure conn e recheck).pageName
        = (checkConnection recheck).pageName) ∧
    (e.status ≠ some 401 →
      (handleSubmitFailure conn e recheck).status = conn.status ∧
      (handleSubmitFailure conn e recheck).pageName = conn.pageName) := by
  refine ⟨rfl, ?_, ?_⟩
  · intro h
    constructor <;> simp [handleSubmitFailure, h]
  · intro h
    constructor <;> simp [handleSubmitFailure, h]

/-- Claim C8, witness for `C8_401_recheck`: a 401 with a failing re-check
drives the status to `error`, while a 500 leaves the prior `connected`
status in place. -/
theorem C8_401_recheck_witness :
    (handleSubmitFailure ⟨"connected", some "MyPage", none⟩ ⟨some 401, none⟩
        (Except.error ⟨none, none⟩)).status = "error" ∧
    (handleSubmitFailure ⟨"connected", some "MyPage", none⟩
        ⟨some 500, some "boom"⟩ (Except.error ⟨none, none⟩)).status
      = "connected" := by
  constructor
  · have h := (C8_401_recheck ⟨"connected", some "MyPage", none⟩
      ⟨some 401, none⟩ (Except.error ⟨none, none⟩)).2.1 rfl
    rw [h.1]
    rfl
  · have h := (C8_401_recheck ⟨"connected", some "MyPage", none⟩
      ⟨some 500, some "boom"⟩ (Except.error ⟨none, none⟩)).2.2 (by decide)
    exact h.1

/-! ## Claim C9 -/

/-- Unfolds the selection pass of `handleImageChange` over an arbitrary
accumulator: the kept files are the valid ones in order, and one error
message is produced per rejected file, in order. -/
theorem handleImageChange_go (files : List String)
    (acc : List String × List String) :
    files.foldl
      (fun acc name =>
        if isValidFile name then (acc.1 ++ [name], acc.2)
        else (acc.1, acc.2 ++ ["File type ." ++ extOf name ++ " not supported"]))
      acc
      = (acc.1 ++ files.filter (fun f => isValidFile f),
         acc.2 ++ (files.filter (fun f => !isValidFile f)).map
           (fun f => "File type ." ++ extOf f ++ " not supported")) := by
  induction files generalizing acc with
  | nil => simp
  | cons f rest ih =>
      by_cases hf : isValidFile f
      · simp [List.foldl_cons, List.filter_cons, hf, ih]
      · simp [List.foldl_cons, List.filter_cons, hf, ih]

/-- Claim C9, counterexample.  The claim says the selected list contains
exactly the files whose extension — the lowercased part after the last dot
— is in the allow-list.  A file named `png` has no dot, hence no extension
in that sense, yet the code's `split('.').pop()` yields the whole name and
the file is accepted. -/
theorem C9_counterexample :
    (handleImageChange ["png"]).1 = ["png"] ∧
    specValidFile "png" = false := by
  decide

/-- Claim C9, amended.  The selected-images list contains exactly those
files the code's test accepts — the lowercased last dot-separated component
of the name (the whole name when it has no dot) is non-empty and in
`\x7bjpg, jpeg, png, webp\x7d` — and exactly one error is raised per rejected
file; on every file name that does contain a dot the code's test agrees
with the claim's last-dot extension test. -/
theorem C9_image_filter (files : List String) :
    (handleImageChange files).1 = files.filter (fun f => isValidFile f) ∧
    (handleImageChange files).2
      = (files.filter (fun f => !isValidFile f)).map
          (fun f => "File type ." ++ extOf f ++ " not supported") ∧
    (∀ name, name.toList.contains '.' = true →
      isValidFile name = specValidFile name) := by
  refine ⟨?_, ?_, ?_⟩
  · simpa [handleImageChange] using
      congrArg Prod.fst (handleImageChange_go files ([], []))
  · simpa [handleImageChange] using
      congrArg Prod.snd (handleImageChange_go files ([], []))
  · intro name hdot
    have hspec : specValidFile name = allowedExts.contains (extOf name) := by
      have hdot' : '.' ∈ name.data := by simpa using hdot
      simp [specValidFile, specExtension, extOf, hdot']
    rw [hspec]
    show (decide (extOf name ≠ "") && allowedExts.contains (extOf name))
      = allowedExts.contains (extOf name)
    by_cases he : extOf name = ""
    · rw [he]
      decide
    · simp [he]

/-- Claim C9, witness for `C9_image_filter` on a dotted file name. -/
theorem C9_image_filter_witness :
    ("photo.JPG".toList.contains '.' = true) ∧
    isValidFile "photo.JPG" = specValidFile "photo.JPG" :=
  ⟨by decide, (C9_image_filter ["photo.JPG"]).2.2 "photo.JPG" (by decide)⟩

/-! ## Claim C10 -/

/-- Claim C10: an inbound message that parses as JSON but whose `type` tag
is none of the four known ones leaves the whole client state unchanged in
both App.tsx variants — the default branch at most logs. -/
theorem C10_unknown_tag_noop (t : String) (st : ClientState) :
    dispatchFrontend (.unknown t) st = st ∧
    dispatchSrc (.unknown t) st = st :=
  ⟨rfl, rfl⟩

end PropertyAgents
